import Mathlib

/-!
Shallow embedding of the org-membership workflow of
src/modules/orgs/server/controllers/OrgsServerController.ts.

Modelling conventions:
* Document identities (the mongoose id strings compared with !==) are Nat.
* Reference lists (org.members, user.orgsPending, phase teams, ...) hold the
  identities only, since the source only ever compares the id field of the
  referenced documents.
* Each request handler becomes a pure function from its inputs (the resolved
  req.user / req.org / req.profile, plus a SaveOracle saying which save calls
  reject) to a result record holding the final in-memory org and user, the
  ordered trace of external effects that completed (saves, notifications) and
  the HTTP status code sent.
* Population (mongoose populate) only expands references for display; on this
  flat model it is the identity, except that invoking it on a null document
  raises, which is modelled as Except.error.
-/

namespace Devex

/-- String constants used by the controller. -/
def adminRole : String := "admin"

def sprintWithUsCd : String := "sprint-with-us"

def draftStatus : String := "Draft"

def companyJoinRequest : String := "company-join-request"

def companyJoinRequestAccepted : String := "company-join-request-accepted"

def companyJoinRequestDeclined : String := "company-join-request-declined"

/-- Field names of the Org document, as used by the lodash pick in read. -/
def fId : String := "_id"

def fOrgImageURL : String := "orgImageURL"

def fName : String := "name"

def fWebsite : String := "website"

def fCapabilities : String := "capabilities"

def fOwner : String := "owner"

def fAdmins : String := "admins"

def fMembers : String := "members"

def fJoinRequests : String := "joinRequests"

/-- User document (modules/users): identity, platform roles, and the org
reference sets mirroring the inverse side of Org membership. -/
structure User where
  id : Nat
  roles : List String
  orgsAdmin : List Nat
  orgsMember : List Nat
  orgsPending : List Nat
deriving DecidableEq

/-- Org document: identity, public display fields, owner and the three
membership reference sets. -/
structure Org where
  _id : Nat
  orgImageURL : String
  name : String
  website : String
  capabilities : List Nat
  owner : Nat
  admins : List Nat
  members : List Nat
  joinRequests : List Nat
deriving DecidableEq

/-- Value stored under one top-level field of a serialized document. -/
inductive FieldVal where
  | nat : Nat → FieldVal
  | str : String → FieldVal
  | ids : List Nat → FieldVal
deriving DecidableEq

/-- The Org document as the association list that res.json serializes. -/
def Org.doc (o : Org) : List (String × FieldVal) :=
  [(fId, FieldVal.nat o._id),
   (fOrgImageURL, FieldVal.str o.orgImageURL),
   (fName, FieldVal.str o.name),
   (fWebsite, FieldVal.str o.website),
   (fCapabilities, FieldVal.ids o.capabilities),
   (fOwner, FieldVal.nat o.owner),
   (fAdmins, FieldVal.ids o.admins),
   (fMembers, FieldVal.ids o.members),
   (fJoinRequests, FieldVal.ids o.joinRequests)]

/-- Utility function which determines whether the given user is an
administrator of the given organization (isUserAdmin in the source).
The JS null/undefined guard on either argument becomes the none cases;
indexOf(x) greater or equal 0 on a JS array is exactly membership, and the
source's map of each admin document to its id is the identity here because
org.admins already holds the identities. -/
def isUserAdmin (org : Option Org) (user : Option User) : Bool :=
  match user, org with
  | none, _ => false
  | _, none => false
  | some u, some o =>
    if u.roles.contains adminRole then true
    else if o.admins.contains u.id then true
    else false

/-- Whitelist handed to lodash pick in read. -/
def restrictedFields : List String :=
  [fId, fOrgImageURL, fName, fWebsite, fCapabilities]

/-- Embedding of lodash pick: keep exactly the fields whose key is listed. -/
def pick (doc : List (String × FieldVal)) (keys : List String) :
    List (String × FieldVal) :=
  doc.filter (fun kv => keys.contains kv.1)

/-- The read handler: unauthenticated callers and callers failing the admin
check get only the picked public fields, admins get the whole document. -/
def read (reqUser : Option User) (reqOrg : Org) : List (String × FieldVal) :=
  if reqUser.isNone || !(isUserAdmin (some reqOrg) reqUser) then
    pick reqOrg.doc restrictedFields
  else
    reqOrg.doc

/-- Opportunity summary populated onto a proposal: type code and deadline
(the deadline is the getTime value, in milliseconds). -/
structure Opportunity where
  opportunityTypeCd : String
  deadline : Int
deriving DecidableEq

/-- One phase of a sprint-with-us proposal: its team member identities. -/
structure Phase where
  team : List Nat
deriving DecidableEq

/-- The three phases of a sprint-with-us proposal. -/
structure Phases where
  inception : Phase
  proto : Phase
  implementation : Phase
deriving DecidableEq

/-- Proposal document: owning org, populated opportunity, phase teams and
status. -/
structure Proposal where
  org : Nat
  opportunity : Opportunity
  phases : Phases
  status : String
deriving DecidableEq

/-- External effect that completed, in execution order: a successful save of
a document, or a dispatched notification (event name and recipient ids). -/
inductive Event where
  | saveUser : User → Event
  | saveOrg : Org → Event
  | saveProposal : Proposal → Event
  | sendMessages : String → List Nat → Event
deriving DecidableEq

/-- Which of the awaited save calls of one request reject. Proposal saves are
fire-and-forget in the source (not awaited), so they carry no failure flag. -/
structure SaveOracle where
  orgSaveFails : Bool
  userSaveFails : Bool
deriving DecidableEq

/-- The oracle of a run in which every save succeeds. -/
def SaveOracle.allOk : SaveOracle := ⟨false, false⟩

/-- Outcome of one request handler: the in-memory org and user when the
response is sent (mirroring the source, in-place mutations survive even on a
failed save), the trace of completed external effects, and the HTTP status
code (200 carries the JSON success payload). -/
structure OpResult where
  org : Option Org
  user : Option User
  events : List Event
  statusCode : Nat
deriving DecidableEq

/-- The joinRequest handler: guards, conflict check, then push the user onto
org.joinRequests and the org onto user.orgsPending, save org, save user, and
notify the org admins. A save rejection lands in the catch block (500). -/
def joinRequest (reqUser : Option User) (reqOrg : Option Org)
    (oracle : SaveOracle) : OpResult :=
  match reqUser with
  | none => ⟨reqOrg, none, [], 403⟩
  | some user =>
    match reqOrg with
    | none => ⟨none, some user, [], 422⟩
    | some org =>
      if org.joinRequests.contains user.id || org.members.contains user.id
          || org.admins.contains user.id then
        ⟨some org, some user, [], 422⟩
      else
        let org1 := { org with joinRequests := org.joinRequests ++ [user.id] }
        let user1 := { user with orgsPending := user.orgsPending ++ [org._id] }
        if oracle.orgSaveFails then
          ⟨some org1, some user1, [], 500⟩
        else if oracle.userSaveFails then
          ⟨some org1, some user1, [Event.saveOrg org1], 500⟩
        else
          ⟨some org1, some user1,
            [Event.saveOrg org1, Event.saveUser user1,
             Event.sendMessages companyJoinRequest org1.admins], 200⟩

/-- The acceptRequest handler: admin gate, null guard, then — only when the
requesting member has a pending join request and is not already a member —
move the member from org.joinRequests to org.members and the org from
user.orgsPending to user.orgsMember, notify the requesting user, save org
then user. Any other input is answered with the unchanged org (no-op). -/
def acceptRequest (reqUser : Option User) (reqOrg : Option Org)
    (reqProfile : Option User) (oracle : SaveOracle) : OpResult :=
  if !(reqUser.isSome && isUserAdmin reqOrg reqUser) then
    ⟨reqOrg, reqProfile, [], 403⟩
  else
    match reqOrg, reqProfile with
    | some org, some requestingMember =>
      if org.joinRequests.contains requestingMember.id
          && !(org.members.contains requestingMember.id) then
        let org1 := { org with
          members := org.members ++ [requestingMember.id],
          joinRequests :=
            org.joinRequests.filter (fun member => member != requestingMember.id) }
        let member1 := { requestingMember with
          orgsPending :=
            requestingMember.orgsPending.filter (fun pendingOrg => pendingOrg != org._id),
          orgsMember := requestingMember.orgsMember ++ [org._id] }
        let notice := Event.sendMessages companyJoinRequestAccepted [requestingMember.id]
        if oracle.orgSaveFails then
          ⟨some org1, some member1, [notice], 500⟩
        else if oracle.userSaveFails then
          ⟨some org1, some member1, [notice, Event.saveOrg org1], 500⟩
        else
          ⟨some org1, some member1,
            [notice, Event.saveOrg org1, Event.saveUser member1], 200⟩
      else
        ⟨some org, some requestingMember, [], 200⟩
    | _, _ => ⟨reqOrg, reqProfile, [], 422⟩

/-- The declineRequest handler: admin gate, null guard, then filter the
member out of org.joinRequests and the org out of user.orgsPending, notify
the requesting user, save org then user. -/
def declineRequest (reqUser : Option User) (reqOrg : Option Org)
    (reqProfile : Option User) (oracle : SaveOracle) : OpResult :=
  if !(reqUser.isSome && isUserAdmin reqOrg reqUser) then
    ⟨reqOrg, reqProfile, [], 403⟩
  else
    match reqOrg, reqProfile with
    | some org, some requestingMember =>
      let org1 := { org with
        joinRequests :=
          org.joinRequests.filter (fun member => member != requestingMember.id) }
      let member1 := { requestingMember with
        orgsPending :=
          requestingMember.orgsPending.filter (fun pendingOrg => pendingOrg != org._id) }
      let notice := Event.sendMessages companyJoinRequestDeclined [requestingMember.id]
      if oracle.orgSaveFails then
        ⟨some org1, some member1, [notice], 500⟩
      else if oracle.userSaveFails then
        ⟨some org1, some member1, [notice, Event.saveOrg org1], 500⟩
      else
        ⟨some org1, some member1,
          [notice, Event.saveOrg org1, Event.saveUser member1], 200⟩
    | _, _ => ⟨reqOrg, reqProfile, [], 422⟩

/-- Total number of team entries across the three phases, as summed by
removeUserFromProposals before and after the filters. -/
def teamCount (proposal : Proposal) : Nat :=
  proposal.phases.inception.team.length + proposal.phases.proto.team.length
    + proposal.phases.implementation.team.length

/-- The body of the forEach in removeUserFromProposals, applied to one
fetched proposal: skip unless sprint-with-us with a strictly future deadline;
otherwise filter the user out of all three phase teams, and when the total
count changed, set status to Draft and save (the Bool records the save). -/
def processProposal (userId : Nat) (rightNow : Int) (proposal : Proposal) :
    Proposal × Bool :=
  let deadline := proposal.opportunity.deadline
  let isSprintWithUs := proposal.opportunity.opportunityTypeCd == sprintWithUsCd
  if isSprintWithUs && decide (deadline - rightNow > 0) then
    let beforeProposalUserCount := teamCount proposal
    let phases1 : Phases :=
      { inception := ⟨proposal.phases.inception.team.filter (fun member => member != userId)⟩,
        proto := ⟨proposal.phases.proto.team.filter (fun member => member != userId)⟩,
        implementation := ⟨proposal.phases.implementation.team.filter (fun member => member != userId)⟩ }
    let updated := { proposal with phases := phases1 }
    let afterProposalUserCount := teamCount updated
    if beforeProposalUserCount != afterProposalUserCount then
      ({ updated with status := draftStatus }, true)
    else
      (updated, false)
  else
    (proposal, false)

/-- Updates all OPEN proposals with the given user (removeUserFromProposals
in the source). The find restricted to the org becomes the condition on each
database entry; non-matching proposals are never fetched, hence unchanged.
Returns the resulting proposal database and the proposal saves issued, in
order. -/
def removeUserFromProposals (user : User) (org : Org) (rightNow : Int)
    (db : List Proposal) : List Proposal × List Event :=
  let touched := db.map (fun proposal =>
    if proposal.org == org._id then processProposal user.id rightNow proposal
    else (proposal, false))
  (touched.map Prod.fst,
   touched.filterMap (fun pr =>
     if pr.2 then some (Event.saveProposal pr.1) else none))

/-- The user record with the org filtered out of orgsAdmin and orgsMember,
as built by the first step of removeMember. -/
def userWithoutOrg (user : User) (org : Org) : User :=
  { user with
    orgsAdmin := user.orgsAdmin.filter (fun adminOrg => adminOrg != org._id),
    orgsMember := user.orgsMember.filter (fun memberOrg => memberOrg != org._id) }

/-- The org record with the user filtered out of members and admins, as
built by the last step of removeMember. -/
def orgWithoutUser (org : Org) (user : User) : Org :=
  { org with
    members := org.members.filter (fun member => member != user.id),
    admins := org.admins.filter (fun admin => admin != user.id) }

/-- Outcome of removeMember: final org, user and proposal database, the
trace of completed external effects, and whether the returned promise
rejected (an awaited save failed). -/
structure RemoveResult where
  org : Org
  user : User
  proposals : List Proposal
  events : List Event
  errored : Bool
deriving DecidableEq

/-- Removes organizations from user associations, user from org, and user
from any open proposals (removeMember in the source): filter the org out of
the user sets and save the user — a rejection here aborts the rest — then
run the proposal cleanup against the still-unmodified org, then filter the
user out of the org sets and save the org. -/
def removeMember (user : User) (org : Org) (rightNow : Int)
    (db : List Proposal) (oracle : SaveOracle) : RemoveResult :=
  let user1 := { user with
    orgsAdmin := user.orgsAdmin.filter (fun adminOrg => adminOrg != org._id),
    orgsMember := user.orgsMember.filter (fun memberOrg => memberOrg != org._id) }
  if oracle.userSaveFails then
    ⟨org, user1, db, [], true⟩
  else
    let cleaned := removeUserFromProposals user1 org rightNow db
    let org1 := { org with
      members := org.members.filter (fun member => member != user1.id),
      admins := org.admins.filter (fun admin => admin != user1.id) }
    if oracle.orgSaveFails then
      ⟨org1, user1, cleaned.1, Event.saveUser user1 :: cleaned.2, true⟩
    else
      ⟨org1, user1, cleaned.1,
        Event.saveUser user1 :: cleaned.2 ++ [Event.saveOrg org1], false⟩

/-- Message produced by dereferencing a null document in populateOrg. -/
def nullPopulateMsg : String := "TypeError: org is null"

/-- OrgModel.findById: the first org in the database carrying the id. -/
def findById (db : List Org) (id : Nat) : Option Org :=
  db.find? (fun o => o._id == id)

/-- Populates the given org with referenced models (populateOrg in the
source). Population only expands references for display, so it is the
identity on this flat model; calling it on a null document, as getOrgById
does for an unknown id, dereferences null and raises. -/
def populateOrg (org : Option Org) : Except String Org :=
  match org with
  | none => Except.error nullPopulateMsg
  | some o => Except.ok o

/-- getOrgById: look the org up and unconditionally populate the result. -/
def getOrgById (db : List Org) (id : Nat) : Except String Org :=
  populateOrg (findById db id)

/-- Sample ordinary user (identity 1) for concrete instantiations. -/
def sampleUser : User := ⟨1, [], [], [], []⟩

/-- Sample org admin (identity 2) for concrete instantiations. -/
def sampleAdmin : User := ⟨2, [], [], [], []⟩

/-- Sample org (identity 10) owned and administered by user 2, with no
pending join requests. -/
def sampleOrg : Org := ⟨10, "", "", "", [], 2, [2], [2], []⟩

/-- Sample org like sampleOrg but with a pending join request of user 1. -/
def samplePendingOrg : Org := ⟨10, "", "", "", [], 2, [2], [2], [1]⟩

/-- Sample sprint-with-us proposal of org 10 with user 1 on two teams. -/
def sampleProposal : Proposal :=
  ⟨10, ⟨sprintWithUsCd, 100⟩, ⟨⟨[1]⟩, ⟨[1, 2]⟩, ⟨[2]⟩⟩, "Submitted"⟩

/-- Oracle of a run whose org save rejects. -/
def failOracle : SaveOracle := ⟨true, false⟩

/-- C3: isUserAdmin is true exactly when both arguments are present and the
user either carries the platform superuser role or appears in org.admins;
it is false whenever either argument is absent. Being a plain function of
its arguments, it has no side effects. -/
theorem c3_isUserAdmin_iff (org : Option Org) (user : Option User) :
    isUserAdmin org user = true ↔
      ∃ o u, org = some o ∧ user = some u ∧
        (adminRole ∈ u.roles ∨ u.id ∈ o.admins) := by
  cases user with
  | none => simp [isUserAdmin]
  | some u =>
    cases org with
    | none => simp [isUserAdmin]
    | some o =>
      by_cases hr : adminRole ∈ u.roles
      · simp [isUserAdmin, hr]
      · by_cases ha : u.id ∈ o.admins
        · simp [isUserAdmin, hr, ha]
        · simp [isUserAdmin, hr, ha]

/-- Helper: every field surviving a pick has its key in the whitelist. -/
theorem pick_key_mem (doc : List (String × FieldVal)) (keys : List String) :
    ∀ kv ∈ pick doc keys, kv.1 ∈ keys := by
  intro kv hkv
  have hfil := List.of_mem_filter hkv
  simpa using hfil

/-- C8: the restricted read served to an unauthenticated caller or one
failing the admin check consists of exactly the whitelisted top-level
fields id, image URL, name, website and capabilities, and in particular
never the admins, members, joinRequests or owner fields. -/
theorem c8_restricted_read (reqUser : Option User) (org : Org)
    (h : reqUser = none ∨ isUserAdmin (some org) reqUser = false) :
    (read reqUser org).map Prod.fst = restrictedFields ∧
      ∀ kv ∈ read reqUser org,
        kv.1 ≠ fAdmins ∧ kv.1 ≠ fMembers ∧ kv.1 ≠ fJoinRequests ∧
          kv.1 ≠ fOwner := by
  have hread : read reqUser org = pick org.doc restrictedFields := by
    rcases h with h | h
    · simp [read, h]
    · simp [read, h]
  refine ⟨?_, ?_⟩
  · rw [hread]; rfl
  · intro kv hkv
    rw [hread] at hkv
    have hk := pick_key_mem org.doc restrictedFields kv hkv
    simp [restrictedFields] at hk
    rcases hk with h1 | h1 | h1 | h1 | h1 <;> rw [h1] <;>
      exact ⟨by decide, by decide, by decide, by decide⟩

/-- Helper: the three phase-team filters of a qualifying proposal, with the
Draft/save decision, fully characterize the per-proposal cleanup step. -/
theorem processProposal_char (userId : Nat) (rightNow : Int) (p : Proposal)
    (hA : p.opportunity.opportunityTypeCd = sprintWithUsCd)
    (hB : p.opportunity.deadline > rightNow) :
    (processProposal userId rightNow p).1.phases.inception.team
        = p.phases.inception.team.filter (fun member => member != userId)
  ∧ (processProposal userId rightNow p).1.phases.proto.team
        = p.phases.proto.team.filter (fun member => member != userId)
  ∧ (processProposal userId rightNow p).1.phases.implementation.team
        = p.phases.implementation.team.filter (fun member => member != userId)
  ∧ ((processProposal userId rightNow p).2 = true ↔
        teamCount (processProposal userId rightNow p).1 < teamCount p)
  ∧ ((processProposal userId rightNow p).2 = true →
        (processProposal userId rightNow p).1.status = draftStatus)
  ∧ ((processProposal userId rightNow p).2 = false →
        (processProposal userId rightNow p).1 = p) := by
  have hpos : p.opportunity.deadline - rightNow > 0 := by omega
  have hle1 := List.length_filter_le (fun member => member != userId)
    p.phases.inception.team
  have hle2 := List.length_filter_le (fun member => member != userId)
    p.phases.proto.team
  have hle3 := List.length_filter_le (fun member => member != userId)
    p.phases.implementation.team
  simp only [processProposal]
  split_ifs with h1 h2
  · refine ⟨by simp, by simp, by simp, ?_, fun _ => by simp, ?_⟩
    · constructor
      · intro _
        simp only [bne_iff_ne, ne_eq, teamCount] at h2
        simp only [teamCount]
        omega
      · intro _
        rfl
    · intro hfalse
      simp at hfalse
  · have heach1 : p.phases.inception.team.filter (fun member => member != userId)
        = p.phases.inception.team := by
      refine (List.filter_sublist _).eq_of_length ?_
      simp only [bne_iff_ne, ne_eq, not_not, teamCount] at h2
      omega
    have heach2 : p.phases.proto.team.filter (fun member => member != userId)
        = p.phases.proto.team := by
      refine (List.filter_sublist _).eq_of_length ?_
      simp only [bne_iff_ne, ne_eq, not_not, teamCount] at h2
      omega
    have heach3 : p.phases.implementation.team.filter (fun member => member != userId)
        = p.phases.implementation.team := by
      refine (List.filter_sublist _).eq_of_length ?_
      simp only [bne_iff_ne, ne_eq, not_not, teamCount] at h2
      omega
    refine ⟨by simp, by simp, by simp, ?_, ?_, ?_⟩
    · constructor
      · intro hfalse
        simp at hfalse
      · intro hlt
        exfalso
        rw [heach1, heach2, heach3] at hlt
        simp only [teamCount] at hlt
        omega
    · intro hfalse
      simp at hfalse
    · intro _
      dsimp only
      rw [heach1, heach2, heach3]
  · exfalso
    apply h1
    simp [hA, hpos]

/-- C2: the cleanup leaves proposals of other orgs untouched and, for a
proposal of the org, leaves it completely unchanged unless it is
sprint-with-us with a strictly future deadline; a qualifying proposal has
the user filtered out of all three phase teams and is set to Draft and
saved exactly when the total team count decreased. -/
theorem c2_removeUserFromProposals_spec (user : User) (org : Org)
    (rightNow : Int) (db : List Proposal) :
    (removeUserFromProposals user org rightNow db).1 =
        db.map (fun p =>
          if p.org = org._id then (processProposal user.id rightNow p).1 else p)
  ∧ ∀ p : Proposal,
      (¬(p.opportunity.opportunityTypeCd = sprintWithUsCd ∧
            p.opportunity.deadline > rightNow) →
          processProposal user.id rightNow p = (p, false))
    ∧ (p.opportunity.opportunityTypeCd = sprintWithUsCd →
        p.opportunity.deadline > rightNow →
          (processProposal user.id rightNow p).1.phases.inception.team
              = p.phases.inception.team.filter (fun member => member != user.id)
        ∧ (processProposal user.id rightNow p).1.phases.proto.team
              = p.phases.proto.team.filter (fun member => member != user.id)
        ∧ (processProposal user.id rightNow p).1.phases.implementation.team
              = p.phases.implementation.team.filter (fun member => member != user.id)
        ∧ ((processProposal user.id rightNow p).2 = true ↔
              teamCount (processProposal user.id rightNow p).1 < teamCount p)
        ∧ ((processProposal user.id rightNow p).2 = true →
              (processProposal user.id rightNow p).1.status = draftStatus)
        ∧ ((processProposal user.id rightNow p).2 = false →
              (processProposal user.id rightNow p).1 = p)) := by
  constructor
  · simp only [removeUserFromProposals, List.map_map]
    refine List.map_congr_left ?_
    intro p _
    by_cases hc : p.org = org._id
    · simp [hc]
    · simp [hc]
  · intro p
    constructor
    · intro h
      simp only [processProposal]
      split_ifs with h1 h2
      · exfalso
        rw [Bool.and_eq_true] at h1
        refine h ⟨by simpa using h1.1, ?_⟩
        have hd := of_decide_eq_true h1.2
        omega
      · exfalso
        rw [Bool.and_eq_true] at h1
        refine h ⟨by simpa using h1.1, ?_⟩
        have hd := of_decide_eq_true h1.2
        omega
      · rfl
    · intro hA hB
      exact processProposal_char user.id rightNow p hA hB

/-- C1: removeMember persists the user stripped of the org first, then runs
the proposal cleanup against the still-unmodified org, then persists the
org stripped of the user and returns it; when the user save fails, the
operation errors with the proposal database and the org untouched and no
completed effect at all. -/
theorem c1_removeMember_ordering (user : User) (org : Org) (rightNow : Int)
    (db : List Proposal) (oracle : SaveOracle) :
    (oracle.userSaveFails = true →
        removeMember user org rightNow db oracle =
          ⟨org, userWithoutOrg user org, db, [], true⟩)
  ∧ (oracle.userSaveFails = false → oracle.orgSaveFails = false →
        removeMember user org rightNow db oracle =
          ⟨orgWithoutUser org user, userWithoutOrg user org,
           (removeUserFromProposals (userWithoutOrg user org) org rightNow db).1,
           Event.saveUser (userWithoutOrg user org)
             :: (removeUserFromProposals (userWithoutOrg user org) org rightNow db).2
             ++ [Event.saveOrg (orgWithoutUser org user)], false⟩) := by
  constructor
  · intro h
    simp [removeMember, h, userWithoutOrg]
  · intro h1 h2
    simp [removeMember, h1, h2, userWithoutOrg, orgWithoutUser]

/-- C4: a join request by a user already pending, already a member or
already an admin is answered with the conflict status and leaves the org
and the user exactly as they were, with no completed effect. -/
theorem c4_joinRequest_conflict (user : User) (org : Org)
    (oracle : SaveOracle)
    (h : user.id ∈ org.joinRequests ∨ user.id ∈ org.members ∨
          user.id ∈ org.admins) :
    joinRequest (some user) (some org) oracle =
      ⟨some org, some user, [], 422⟩ := by
  have hcond : (org.joinRequests.contains user.id
      || org.members.contains user.id
      || org.admins.contains user.id) = true := by
    rcases h with h | h | h <;> simp [h]
  simp only [joinRequest]
  rw [hcond]
  rfl

/-- C5: when the requesting member has no pending join request or is
already a member, acceptRequest performed by an admin answers 200 with the
unchanged org and user and completes no effect. -/
theorem c5_acceptRequest_noop (actingUser requestingMember : User)
    (org : Org) (oracle : SaveOracle)
    (hAdmin : isUserAdmin (some org) (some actingUser) = true)
    (h : ¬(requestingMember.id ∈ org.joinRequests ∧
            requestingMember.id ∉ org.members)) :
    acceptRequest (some actingUser) (some org) (some requestingMember) oracle
      = ⟨some org, some requestingMember, [], 200⟩ := by
  have hcond : (org.joinRequests.contains requestingMember.id
      && !(org.members.contains requestingMember.id)) = false := by
    by_cases h1 : requestingMember.id ∈ org.joinRequests
    · have h2 : requestingMember.id ∈ org.members := by
        by_contra h2
        exact h ⟨h1, h2⟩
      simp [h2]
    · simp [h1]
  simp only [acceptRequest]
  rw [hAdmin, hcond]
  rfl

/-- Helper: with the admin gate passed, declineRequest always leaves the
member filtered out of org.joinRequests and the org filtered out of
user.orgsPending, whatever the save oracle; only the trace and the status
depend on the save outcomes, and neither gate error occurs. -/
theorem declineRequest_state (actingUser requestingMember : User) (org : Org)
    (oracle : SaveOracle)
    (hAdmin : isUserAdmin (some org) (some actingUser) = true) :
    (declineRequest (some actingUser) (some org) (some requestingMember)
        oracle).org
      = some { org with joinRequests :=
          org.joinRequests.filter (fun member => member != requestingMember.id) }
  ∧ (declineRequest (some actingUser) (some org) (some requestingMember)
        oracle).user
      = some { requestingMember with orgsPending :=
          requestingMember.orgsPending.filter (fun pendingOrg => pendingOrg != org._id) }
  ∧ (declineRequest (some actingUser) (some org) (some requestingMember)
        oracle).statusCode ≠ 403
  ∧ (declineRequest (some actingUser) (some org) (some requestingMember)
        oracle).statusCode ≠ 422 := by
  simp only [declineRequest]
  rw [hAdmin]
  by_cases h1 : oracle.orgSaveFails <;> by_cases h2 : oracle.userSaveFails <;>
    simp [h1, h2]

/-- C6: declining the same join request twice, as an admin, ends in the
same org and user as declining it once, and when the member was never in
org.joinRequests the single decline already leaves the org untouched and
raises neither gate error. -/
theorem c6_declineRequest_idempotent (actingUser requestingMember : User)
    (org : Org) (oracle : SaveOracle)
    (hAdmin : isUserAdmin (some org) (some actingUser) = true) :
    ((declineRequest (some actingUser)
        (declineRequest (some actingUser) (some org) (some requestingMember)
          oracle).org
        (declineRequest (some actingUser) (some org) (some requestingMember)
          oracle).user oracle).org
      = (declineRequest (some actingUser) (some org) (some requestingMember)
          oracle).org
    ∧ (declineRequest (some actingUser)
        (declineRequest (some actingUser) (some org) (some requestingMember)
          oracle).org
        (declineRequest (some actingUser) (some org) (some requestingMember)
          oracle).user oracle).user
      = (declineRequest (some actingUser) (some org) (some requestingMember)
          oracle).user)
  ∧ (requestingMember.id ∉ org.joinRequests →
      (declineRequest (some actingUser) (some org) (some requestingMember)
          oracle).org = some org
      ∧ (declineRequest (some actingUser) (some org) (some requestingMember)
          oracle).statusCode ≠ 403
      ∧ (declineRequest (some actingUser) (some org) (some requestingMember)
          oracle).statusCode ≠ 422) := by
  have hfiljr : ∀ (l : List Nat) (a : Nat),
      (l.filter (fun member => member != a)).filter (fun member => member != a)
        = l.filter (fun member => member != a) := by
    intro l a
    simp [List.filter_filter]
  obtain ⟨ho1, hu1, hs1, hs2⟩ :=
    declineRequest_state actingUser requestingMember org oracle hAdmin
  have hAdmin2 : isUserAdmin
      (some { org with joinRequests :=
          org.joinRequests.filter (fun member => member != requestingMember.id) })
      (some actingUser) = true := hAdmin
  obtain ⟨ho2, hu2, _, _⟩ := declineRequest_state actingUser
    { requestingMember with orgsPending :=
        requestingMember.orgsPending.filter (fun pendingOrg => pendingOrg != org._id) }
    { org with joinRequests :=
        org.joinRequests.filter (fun member => member != requestingMember.id) }
    oracle hAdmin2
  refine ⟨⟨?_, ?_⟩, ?_⟩
  · rw [ho1, hu1, ho2]
    simp [hfiljr]
  · rw [ho1, hu1, hu2]
    simp [hfiljr]
  · intro habs
    have hjr : org.joinRequests.filter (fun member => member != requestingMember.id)
        = org.joinRequests := by
      apply List.filter_eq_self.mpr
      intro b hb
      simp
      rintro rfl
      exact habs hb
    refine ⟨?_, hs1, hs2⟩
    rw [ho1, hjr]

/-- Helper: the effective branch of acceptRequest under an all-successful
oracle, written out: member moved from joinRequests to members, org moved
from orgsPending to orgsMember, notification first, then both saves. -/
theorem acceptRequest_effective_ok (actingUser requestingMember : User)
    (org : Org)
    (hAdmin : isUserAdmin (some org) (some actingUser) = true)
    (hpend : requestingMember.id ∈ org.joinRequests)
    (hnm : requestingMember.id ∉ org.members) :
    acceptRequest (some actingUser) (some org) (some requestingMember)
        SaveOracle.allOk =
      ⟨some { org with
          members := org.members ++ [requestingMember.id],
          joinRequests := org.joinRequests.filter (fun member => member != requestingMember.id) },
       some { requestingMember with
          orgsPending := requestingMember.orgsPending.filter (fun pendingOrg => pendingOrg != org._id),
          orgsMember := requestingMember.orgsMember ++ [org._id] },
       [Event.sendMessages companyJoinRequestAccepted [requestingMember.id],
        Event.saveOrg { org with
          members := org.members ++ [requestingMember.id],
          joinRequests := org.joinRequests.filter (fun member => member != requestingMember.id) },
        Event.saveUser { requestingMember with
          orgsPending := requestingMember.orgsPending.filter (fun pendingOrg => pendingOrg != org._id),
          orgsMember := requestingMember.orgsMember ++ [org._id] }],
       200⟩ := by
  have hcond : (org.joinRequests.contains requestingMember.id
      && !(org.members.contains requestingMember.id)) = true := by
    simp [hpend, hnm]
  simp only [acceptRequest]
  rw [hAdmin, hcond]
  rfl

/-- Helper: joinRequest without conflict under an all-successful oracle:
the user is appended to org.joinRequests, the org to user.orgsPending,
both saved and the admins notified. -/
theorem joinRequest_success (user : User) (org : Org)
    (hjr : user.id ∉ org.joinRequests) (hm : user.id ∉ org.members)
    (ha : user.id ∉ org.admins) :
    joinRequest (some user) (some org) SaveOracle.allOk =
      ⟨some { org with joinRequests := org.joinRequests ++ [user.id] },
       some { user with orgsPending := user.orgsPending ++ [org._id] },
       [Event.saveOrg { org with joinRequests := org.joinRequests ++ [user.id] },
        Event.saveUser { user with orgsPending := user.orgsPending ++ [org._id] },
        Event.sendMessages companyJoinRequest org.admins],
       200⟩ := by
  have hcond : (org.joinRequests.contains user.id
      || org.members.contains user.id
      || org.admins.contains user.id) = false := by
    simp [hjr, hm, ha]
  simp only [joinRequest]
  rw [hcond]
  rfl

/-- C7: a join request followed by its acceptance by an admin leaves the
user in org.members and out of org.joinRequests, and the org in
user.orgsMember and out of user.orgsPending. -/
theorem c7_joinRequest_then_accept (user actingUser : User) (org : Org)
    (hAdmin : isUserAdmin (some org) (some actingUser) = true)
    (hjr : user.id ∉ org.joinRequests) (hm : user.id ∉ org.members)
    (ha : user.id ∉ org.admins) :
    ∃ finalOrg finalUser,
      (acceptRequest (some actingUser)
          (joinRequest (some user) (some org) SaveOracle.allOk).org
          (joinRequest (some user) (some org) SaveOracle.allOk).user
          SaveOracle.allOk).org = some finalOrg
    ∧ (acceptRequest (some actingUser)
          (joinRequest (some user) (some org) SaveOracle.allOk).org
          (joinRequest (some user) (some org) SaveOracle.allOk).user
          SaveOracle.allOk).user = some finalUser
    ∧ user.id ∈ finalOrg.members
    ∧ user.id ∉ finalOrg.joinRequests
    ∧ org._id ∈ finalUser.orgsMember
    ∧ org._id ∉ finalUser.orgsPending := by
  rw [joinRequest_success user org hjr hm ha]
  dsimp only
  have hAdmin2 : isUserAdmin
      (some { org with joinRequests := org.joinRequests ++ [user.id] })
      (some actingUser) = true := hAdmin
  have hpend2 : ({ user with orgsPending := user.orgsPending ++ [org._id] } : User).id
      ∈ ({ org with joinRequests := org.joinRequests ++ [user.id] } : Org).joinRequests := by
    simp
  have hnm2 : ({ user with orgsPending := user.orgsPending ++ [org._id] } : User).id
      ∉ ({ org with joinRequests := org.joinRequests ++ [user.id] } : Org).members := by
    simpa using hm
  rw [acceptRequest_effective_ok actingUser
    { user with orgsPending := user.orgsPending ++ [org._id] }
    { org with joinRequests := org.joinRequests ++ [user.id] }
    hAdmin2 hpend2 hnm2]
  dsimp only
  refine ⟨_, _, rfl, rfl, ?_, ?_, ?_, ?_⟩
  · simp
  · simp
  · simp
  · simp

/-- C9: in the effective branch of acceptRequest and in declineRequest the
notification to the requesting user is the first completed effect, before
any save; hence in every run where saving the org or the user fails (status
500) the notification was already dispatched. -/
theorem c9_notification_precedes_saves (actingUser requestingMember : User)
    (org : Org) (oracle : SaveOracle)
    (hAdmin : isUserAdmin (some org) (some actingUser) = true)
    (hpend : requestingMember.id ∈ org.joinRequests)
    (hnm : requestingMember.id ∉ org.members) :
    (∃ rest, (acceptRequest (some actingUser) (some org)
          (some requestingMember) oracle).events
        = Event.sendMessages companyJoinRequestAccepted [requestingMember.id] :: rest)
  ∧ (∃ rest, (declineRequest (some actingUser) (some org)
          (some requestingMember) oracle).events
        = Event.sendMessages companyJoinRequestDeclined [requestingMember.id] :: rest)
  ∧ (oracle.orgSaveFails = true ∨ oracle.userSaveFails = true →
      (acceptRequest (some actingUser) (some org) (some requestingMember)
          oracle).statusCode = 500
    ∧ (declineRequest (some actingUser) (some org) (some requestingMember)
          oracle).statusCode = 500) := by
  have hcond : (org.joinRequests.contains requestingMember.id
      && !(org.members.contains requestingMember.id)) = true := by
    simp [hpend, hnm]
  refine ⟨?_, ?_, ?_⟩
  · simp only [acceptRequest]
    rw [hAdmin, hcond]
    by_cases h1 : oracle.orgSaveFails <;> by_cases h2 : oracle.userSaveFails <;>
      simp [h1, h2]
  · simp only [declineRequest]
    rw [hAdmin]
    by_cases h1 : oracle.orgSaveFails <;> by_cases h2 : oracle.userSaveFails <;>
      simp [h1, h2]
  · intro hfail
    constructor
    · simp only [acceptRequest]
      rw [hAdmin, hcond]
      rcases hfail with h1 | h1
      · simp [h1]
      · by_cases h2 : oracle.orgSaveFails <;> simp [h1, h2]
    · simp only [declineRequest]
      rw [hAdmin]
      rcases hfail with h1 | h1
      · simp [h1]
      · by_cases h2 : oracle.orgSaveFails <;> simp [h1, h2]

/-- C10: for an id matching no org record, getOrgById does not return an
empty or null result: populateOrg dereferences the null lookup result and
the operation raises, so a caller can never observe a null return. -/
theorem c10_getOrgById_unknown_id_throws (db : List Org) (id : Nat)
    (h : ∀ o ∈ db, o._id ≠ id) :
    getOrgById db id = Except.error nullPopulateMsg := by
  have hfind : findById db id = none := by
    rw [findById, List.find?_eq_none]
    intro o ho
    simp [h o ho]
  rw [getOrgById, hfind]
  rfl

/-- Witness for C1 at a concrete input: both save flags false, so the trace
is the user save, the proposal saves, then the org save. -/
theorem c1_removeMember_ordering_witness :
    removeMember sampleUser sampleOrg 0 [] SaveOracle.allOk =
      ⟨orgWithoutUser sampleOrg sampleUser, userWithoutOrg sampleUser sampleOrg,
       (removeUserFromProposals (userWithoutOrg sampleUser sampleOrg) sampleOrg 0 []).1,
       Event.saveUser (userWithoutOrg sampleUser sampleOrg)
         :: (removeUserFromProposals (userWithoutOrg sampleUser sampleOrg) sampleOrg 0 []).2
         ++ [Event.saveOrg (orgWithoutUser sampleOrg sampleUser)], false⟩ :=
  (c1_removeMember_ordering sampleUser sampleOrg 0 [] SaveOracle.allOk).2 rfl rfl

/-- Witness for C2 at a concrete one-proposal database. -/
theorem c2_removeUserFromProposals_spec_witness :
    (removeUserFromProposals sampleUser sampleOrg 0 [sampleProposal]).1 =
      [sampleProposal].map (fun p =>
        if p.org = sampleOrg._id then (processProposal sampleUser.id 0 p).1 else p) :=
  (c2_removeUserFromProposals_spec sampleUser sampleOrg 0 [sampleProposal]).1

/-- Witness for C4: user 2 is already a member and an admin of sampleOrg,
so the join request conflicts. -/
theorem c4_joinRequest_conflict_witness :
    joinRequest (some sampleAdmin) (some sampleOrg) SaveOracle.allOk =
      ⟨some sampleOrg, some sampleAdmin, [], 422⟩ :=
  c4_joinRequest_conflict sampleAdmin sampleOrg SaveOracle.allOk (by decide)

/-- Witness for C5: user 1 has no pending join request on sampleOrg, so the
acceptance is a no-op. -/
theorem c5_acceptRequest_noop_witness :
    acceptRequest (some sampleAdmin) (some sampleOrg) (some sampleUser)
        SaveOracle.allOk
      = ⟨some sampleOrg, some sampleUser, [], 200⟩ :=
  c5_acceptRequest_noop sampleAdmin sampleUser sampleOrg SaveOracle.allOk
    (by decide) (by decide)

/-- Witness for C6: declining twice on samplePendingOrg reaches the same
org as declining once. -/
theorem c6_declineRequest_idempotent_witness :
    (declineRequest (some sampleAdmin)
        (declineRequest (some sampleAdmin) (some samplePendingOrg)
          (some sampleUser) SaveOracle.allOk).org
        (declineRequest (some sampleAdmin) (some samplePendingOrg)
          (some sampleUser) SaveOracle.allOk).user SaveOracle.allOk).org
      = (declineRequest (some sampleAdmin) (some samplePendingOrg)
          (some sampleUser) SaveOracle.allOk).org :=
  ((c6_declineRequest_idempotent sampleAdmin sampleUser samplePendingOrg
      SaveOracle.allOk (by decide)).1).1

/-- Witness for C7: the round trip on sampleOrg with user 1. -/
theorem c7_joinRequest_then_accept_witness :
    ∃ finalOrg finalUser,
      (acceptRequest (some sampleAdmin)
          (joinRequest (some sampleUser) (some sampleOrg) SaveOracle.allOk).org
          (joinRequest (some sampleUser) (some sampleOrg) SaveOracle.allOk).user
          SaveOracle.allOk).org = some finalOrg
    ∧ (acceptRequest (some sampleAdmin)
          (joinRequest (some sampleUser) (some sampleOrg) SaveOracle.allOk).org
          (joinRequest (some sampleUser) (some sampleOrg) SaveOracle.allOk).user
          SaveOracle.allOk).user = some finalUser
    ∧ sampleUser.id ∈ finalOrg.members
    ∧ sampleUser.id ∉ finalOrg.joinRequests
    ∧ sampleOrg._id ∈ finalUser.orgsMember
    ∧ sampleOrg._id ∉ finalUser.orgsPending :=
  c7_joinRequest_then_accept sampleUser sampleAdmin sampleOrg
    (by decide) (by decide) (by decide) (by decide)

/-- Witness for C8: the unauthenticated read of sampleOrg. -/
theorem c8_restricted_read_witness :
    (read none sampleOrg).map Prod.fst = restrictedFields ∧
      ∀ kv ∈ read none sampleOrg,
        kv.1 ≠ fAdmins ∧ kv.1 ≠ fMembers ∧ kv.1 ≠ fJoinRequests ∧
          kv.1 ≠ fOwner :=
  c8_restricted_read none sampleOrg (Or.inl rfl)

/-- Witness for C9 at a run whose org save rejects. -/
theorem c9_notification_precedes_saves_witness :
    (∃ rest, (acceptRequest (some sampleAdmin) (some samplePendingOrg)
          (some sampleUser) failOracle).events
        = Event.sendMessages companyJoinRequestAccepted [sampleUser.id] :: rest)
  ∧ (∃ rest, (declineRequest (some sampleAdmin) (some samplePendingOrg)
          (some sampleUser) failOracle).events
        = Event.sendMessages companyJoinRequestDeclined [sampleUser.id] :: rest)
  ∧ (failOracle.orgSaveFails = true ∨ failOracle.userSaveFails = true →
      (acceptRequest (some sampleAdmin) (some samplePendingOrg)
          (some sampleUser) failOracle).statusCode = 500
    ∧ (declineRequest (some sampleAdmin) (some samplePendingOrg)
          (some sampleUser) failOracle).statusCode = 500) :=
  c9_notification_precedes_saves sampleAdmin sampleUser samplePendingOrg
    failOracle (by decide) (by decide) (by decide)

/-- Witness for C10: id 99 matches no org in a one-org database. -/
theorem c10_getOrgById_unknown_id_throws_witness :
    getOrgById [sampleOrg] 99 = Except.error nullPopulateMsg :=
  c10_getOrgById_unknown_id_throws [sampleOrg] 99 (by decide)

end Devex
